import Mathlib

/-!
Verification of the YSE sound-engine patcher core (gRoute router object and
patcher persistence/injection surface) against its specification.

The router object `gRoute` (src/YseEngine/patcher/genericObjects/gRoute.cpp)
keeps a parameter token list `list : List String` and a vector of outlets
`outputs`.  We embed the outlets polymorphically as `List α`: the handlers
only index into the vector, so the element type is irrelevant to routing.
A handler is embedded as a function returning `Option (Nat × payload)`:
`some (i, v)` means "the message with payload v is sent on the outlet at
index i"; `none` means the handler performed an out-of-bounds container
access (C++ undefined behaviour: `outputs[i]` with `i ≥ size`, or
`outputs.back()` on an empty vector).
-/

namespace YSE.PATCHER

/-- Embedding of `outputs[i].Send...(..)`: the access is valid exactly when
`i` is in range of the outlet vector; an out-of-range index is undefined
behaviour, embedded as `none`. -/
def sendIdx {α : Type} (outputs : List α) (i : Nat) : Option Nat :=
  if i < outputs.length then some i else none

/-- Embedding of `outputs.back().Send...(..)`: valid exactly when the outlet
vector is nonempty, and then designates the last index. -/
def backIdx {α : Type} (outputs : List α) : Option Nat :=
  if outputs.length = 0 then none else some (outputs.length - 1)

/-- First-match scan of the parameter token list, the loop
`for (int i = 0; i < list.size(); i++) if (list[i].compare(s) == 0) ...`
shared by all four gRoute handlers: returns the smallest index whose token
equals `s`, or `none` when no token matches. -/
def scan (list : List String) (s : String) : Option Nat :=
  match list with
  | [] => none
  | t :: rest => if t = s then some 0 else (scan rest s).map (· + 1)

/-- `PARM_CLEAR()` of gRoute: `outputs.clear();`. -/
def parmClear {α : Type} (_outputs : List α) : List α := []

/-- `PARM_PARSE()` of gRoute:
`while (outputs.size() < list.size() + 1) { ADD_OUT_ANY; }`.
`ADD_OUT_ANY` appends one freshly created outlet; outlet creation is
abstracted by `fresh`, applied to the index the new outlet receives. -/
def parmParse {α : Type} (list : List String) (fresh : Nat → α)
    (outputs : List α) : List α :=
  if outputs.length < list.length + 1 then
    parmParse list fresh (outputs ++ [fresh outputs.length])
  else outputs
termination_by list.length + 1 - outputs.length
decreasing_by simp [List.length_append]; omega

/-- `BANG_IN(SetBangValue)` of gRoute: scan the token list for the literal
token "bang"; send a bang on the matching outlet, else on `outputs.back()`. -/
def setBangValue {α : Type} (list : List String) (outputs : List α) :
    Option Nat :=
  match scan list "bang" with
  | some i => sendIdx outputs i
  | none => backIdx outputs

/-- `INT_IN(SetIntValue)` of gRoute: `std::string s = std::to_string(value);`
(canonical decimal rendering, embedded as `toString` on `Int`), scan for an
exact match, forward the integer value unchanged on the matching outlet,
else on `outputs.back()`. -/
def setIntValue {α : Type} (list : List String) (outputs : List α)
    (value : Int) : Option (Nat × Int) :=
  let s := toString value
  match scan list s with
  | some i => (sendIdx outputs i).map (fun j => (j, value))
  | none => (backIdx outputs).map (fun j => (j, value))

/-- `FLOAT_IN(SetFloatValue)` of gRoute: identical body to `SetIntValue`
with a float payload.  The C++ `std::to_string(float)` rendering is a
floating-point operation; it is abstracted as a formatting function `fmt`
over an abstract payload type `φ`, so the routing logic is verified for
every rendering function, the default `std::to_string` included. -/
def setFloatValue {α : Type} {φ : Type} (fmt : φ → String)
    (list : List String) (outputs : List α) (value : φ) : Option (Nat × φ) :=
  let s := fmt value
  match scan list s with
  | some i => (sendIdx outputs i).map (fun j => (j, value))
  | none => (backIdx outputs).map (fun j => (j, value))

/-- Index of the first space character (`value.find(" ")` in C++, which
searches for the single character U+0020, not for general whitespace). -/
def spaceIdx (cs : List Char) : Option Nat :=
  match cs with
  | [] => none
  | c :: rest => if c = ' ' then some 0 else (spaceIdx rest).map (· + 1)

/-- Token extraction of `LIST_IN(SetListValue)`: the prefix of the payload
before its first space character (`value.substr(0, pos)`), or the whole
payload when it contains no space. -/
def firstToken (value : String) : String :=
  match spaceIdx value.toList with
  | some p => String.mk (value.toList.take p)
  | none => value

/-- `LIST_IN(SetListValue)` of gRoute: compare only the first token (string
until the first space) against the token list, but forward the entire
original payload on the selected outlet. -/
def setListValue {α : Type} (list : List String) (outputs : List α)
    (value : String) : Option (Nat × String) :=
  let token := firstToken value
  match scan list token with
  | some i => (sendIdx outputs i).map (fun j => (j, value))
  | none => (backIdx outputs).map (fun j => (j, value))

/-- A successful scan returns an index inside the token list. -/
lemma scan_lt_of (list : List String) (s : String) (i : Nat)
    (h : scan list s = some i) : i < list.length := by
  induction list generalizing i with
  | nil => simp [scan] at h
  | cons t rest ih =>
    by_cases ht : t = s
    · simp [scan, ht] at h
      simp only [List.length_cons]
      omega
    · simp [scan, ht] at h
      obtain ⟨m, hm, rfl⟩ := h
      have := ih m hm
      simp
      omega

/-- The scan returns the index of the first matching token. -/
lemma scan_eq_some_of (list : List String) (s : String) (i : Nat)
    (h : list[i]? = some s) (hfirst : ∀ j, j < i → list[j]? ≠ some s) :
    scan list s = some i := by
  induction list generalizing i with
  | nil => simp at h
  | cons t rest ih =>
    cases i with
    | zero =>
      simp at h
      simp [scan, h]
    | succ n =>
      have ht : t ≠ s := by
        have h0 := hfirst 0 (Nat.succ_pos n)
        simpa using h0
      have hr : rest[n]? = some s := by simpa using h
      have hf : ∀ j, j < n → rest[j]? ≠ some s := by
        intro j hj
        have hj1 := hfirst (j + 1) (by omega)
        simpa using hj1
      simp [scan, ht, ih n hr hf]

/-- When no token matches, the scan fails. -/
lemma scan_eq_none_of (list : List String) (s : String)
    (h : ∀ t ∈ list, t ≠ s) : scan list s = none := by
  induction list with
  | nil => rfl
  | cons t rest ih =>
    have ht : t ≠ s := h t (by simp)
    have hr : ∀ u ∈ rest, u ≠ s := fun u hu => h u (by simp [hu])
    simp [scan, ht, ih hr]

/-- `PARM_PARSE` only appends: the resulting outlet vector has length
`max (previous length) (list.length + 1)`. -/
lemma parmParse_length {α : Type} (list : List String) (fresh : Nat → α) :
    ∀ outputs : List α,
      (parmParse list fresh outputs).length =
        max outputs.length (list.length + 1) := by
  have key : ∀ (n : Nat) (outputs : List α),
      list.length + 1 - outputs.length = n →
      (parmParse list fresh outputs).length =
        max outputs.length (list.length + 1) := by
    intro n
    induction n with
    | zero =>
      intro outputs hn
      have hge : ¬ outputs.length < list.length + 1 := by omega
      rw [parmParse]
      simp [hge]
      omega
    | succ m ih =>
      intro outputs hn
      have hlt : outputs.length < list.length + 1 := by omega
      rw [parmParse]
      simp only [hlt, if_pos]
      rw [ih (outputs ++ [fresh outputs.length]) (by simp; omega)]
      simp
      omega
  intro outputs
  exact key (list.length + 1 - outputs.length) outputs rfl

/-- `PARM_PARSE` preserves every pre-existing outlet at its index. -/
lemma parmParse_getElem {α : Type} (list : List String) (fresh : Nat → α) :
    ∀ (outputs : List α) (i : Nat), i < outputs.length →
      (parmParse list fresh outputs)[i]? = outputs[i]? := by
  have key : ∀ (n : Nat) (outputs : List α) (i : Nat),
      list.length + 1 - outputs.length = n → i < outputs.length →
      (parmParse list fresh outputs)[i]? = outputs[i]? := by
    intro n
    induction n with
    | zero =>
      intro outputs i hn _hi
      have hge : ¬ outputs.length < list.length + 1 := by omega
      rw [parmParse]
      simp [hge]
    | succ m ih =>
      intro outputs i hn hi
      have hlt : outputs.length < list.length + 1 := by omega
      rw [parmParse]
      simp only [hlt, if_pos]
      rw [ih (outputs ++ [fresh outputs.length]) i (by simp; omega) (by simp; omega)]
      simp [List.getElem?_append, hi]
  intro outputs i hi
  exact key (list.length + 1 - outputs.length) outputs i rfl hi

/-- Claim C1: for every parameter token list `T` of size N, running
ParameterClear followed by ParameterParse leaves the router with exactly
N + 1 outlets, and `outputs.back()` — the catch-all target used by every
handler when no token matches — designates the last outlet, at index N. -/
theorem claim_C1_outlet_count {α : Type} (list : List String)
    (fresh : Nat → α) (prev : List α) :
    (parmParse list fresh (parmClear prev)).length = list.length + 1 ∧
    backIdx (parmParse list fresh (parmClear prev)) = some list.length := by
  have hlen : (parmParse list fresh (parmClear prev)).length = list.length + 1 := by
    rw [parmClear, parmParse_length]
    simp
  refine ⟨hlen, ?_⟩
  rw [backIdx, hlen]
  simp

/-- Claim C5: a bang delivered to the router is sent exactly once: on
`O[i]` for the smallest index i with `T[i] = "bang"` (first-match-wins,
exact case-sensitive equality), else on the catch-all `O[N]`.  The model
emits a single send event by construction, so "exactly one bang" is the
`some` of the returned index. -/
theorem claim_C5_bang_dispatch {α : Type} (list : List String)
    (outputs : List α) (h : outputs.length = list.length + 1) :
    (∀ i, list[i]? = some "bang" → (∀ j, j < i → list[j]? ≠ some "bang") →
      setBangValue list outputs = some i) ∧
    ((∀ t ∈ list, t ≠ "bang") → setBangValue list outputs = some list.length) := by
  constructor
  · intro i hi hfirst
    have hs := scan_eq_some_of list "bang" i hi hfirst
    have hlt := scan_lt_of list "bang" i hs
    rw [setBangValue, hs]
    simp only [sendIdx]
    rw [if_pos (by omega)]
  · intro hnone
    have hs := scan_eq_none_of list "bang" hnone
    rw [setBangValue, hs, backIdx, h]
    simp

/-- Concrete instance of claim C5: with tokens ["foo","bang","baz"] a bang
routes to outlet 1. -/
theorem claim_C5_witness :
    setBangValue ["foo", "bang", "baz"] ([0, 1, 2, 3] : List Nat) = some 1 :=
  (claim_C5_bang_dispatch ["foo", "bang", "baz"] [0, 1, 2, 3] (by decide)).1
    1 (by decide) (by decide)

/-- Claim C6: an integer value v is formatted as its canonical decimal
string (`std::to_string`, embedded as `toString : Int → String`) and
compared for exact equality against the tokens in order; the earliest
matching index receives the integer unchanged, else the catch-all `O[N]`
does.  Duplicate tokens are legal and the earliest index wins, which is
exactly the first-match hypothesis of the first conjunct. -/
theorem claim_C6_int_dispatch {α : Type} (list : List String)
    (outputs : List α) (h : outputs.length = list.length + 1) (value : Int) :
    (∀ i, list[i]? = some (toString value) →
      (∀ j, j < i → list[j]? ≠ some (toString value)) →
      setIntValue list outputs value = some (i, value)) ∧
    ((∀ t ∈ list, t ≠ toString value) →
      setIntValue list outputs value = some (list.length, value)) := by
  constructor
  · intro i hi hfirst
    have hs := scan_eq_some_of list (toString value) i hi hfirst
    have hlt := scan_lt_of list (toString value) i hs
    rw [setIntValue]
    simp only [hs, sendIdx]
    rw [if_pos (by omega)]
    rfl
  · intro hnone
    have hs := scan_eq_none_of list (toString value) hnone
    rw [setIntValue]
    simp only [hs, backIdx, h]
    simp

/-- Concrete instance of claim C6: with tokens ["1","2"], the integer 1
routes to outlet 0 and the integer 5 routes to the catch-all outlet 2. -/
theorem claim_C6_witness :
    setIntValue ["1", "2"] ([0, 1, 2] : List Nat) 1 = some (0, 1) ∧
    setIntValue ["1", "2"] ([0, 1, 2] : List Nat) 5 = some (2, 5) :=
  ⟨(claim_C6_int_dispatch ["1", "2"] [0, 1, 2] (by decide) 1).1
      0 (by decide) (by decide),
   (claim_C6_int_dispatch ["1", "2"] [0, 1, 2] (by decide) 5).2 (by decide)⟩

/-- Claim C3: a float value v is rendered to a string by the default
numeric-to-string routine (`std::to_string`, abstracted as the formatting
function `fmt`, exactly as the integer handler renders with the default
routine), the rendering is compared by exact equality against the tokens
in order, and on the earliest match at index i the float is forwarded
unchanged on `O[i]`, else on the catch-all `O[N]`.  The statement holds
for every rendering function `fmt`, in particular the C++ default. -/
theorem claim_C3_float_dispatch {α : Type} {φ : Type} (fmt : φ → String)
    (list : List String) (outputs : List α)
    (h : outputs.length = list.length + 1) (value : φ) :
    (∀ i, list[i]? = some (fmt value) →
      (∀ j, j < i → list[j]? ≠ some (fmt value)) →
      setFloatValue fmt list outputs value = some (i, value)) ∧
    ((∀ t ∈ list, t ≠ fmt value) →
      setFloatValue fmt list outputs value = some (list.length, value)) := by
  constructor
  · intro i hi hfirst
    have hs := scan_eq_some_of list (fmt value) i hi hfirst
    have hlt := scan_lt_of list (fmt value) i hs
    rw [setFloatValue]
    simp only [hs, sendIdx]
    rw [if_pos (by omega)]
    rfl
  · intro hnone
    have hs := scan_eq_none_of list (fmt value) hnone
    rw [setFloatValue]
    simp only [hs, backIdx, h]
    simp

/-- Concrete instance of claim C3: with a six-decimal rendering (the shape
`std::to_string(float)` produces), value 1 renders as "1.000000", misses
the token "1" and routes to the catch-all outlet 2, while a token list
containing "1.000000" routes it to outlet 0. -/
theorem claim_C3_witness :
    setFloatValue (fun s : String => s ++ ".000000") ["1", "2"]
      ([0, 1, 2] : List Nat) "1" = some (2, "1") ∧
    setFloatValue (fun s : String => s ++ ".000000") ["1.000000", "2"]
      ([0, 1, 2] : List Nat) "1" = some (0, "1") :=
  ⟨(claim_C3_float_dispatch (fun s : String => s ++ ".000000") ["1", "2"]
      [0, 1, 2] (by decide) "1").2 (by decide),
   (claim_C3_float_dispatch (fun s : String => s ++ ".000000") ["1.000000", "2"]
      [0, 1, 2] (by decide) "1").1 0 (by decide) (by decide)⟩

/-- When the payload holds no space character, the split fails. -/
lemma spaceIdx_eq_none_of (cs : List Char) (h : ∀ c ∈ cs, c ≠ ' ') :
    spaceIdx cs = none := by
  induction cs with
  | nil => rfl
  | cons c rest ih =>
    have hc : c ≠ ' ' := h c (by simp)
    have hr : ∀ d ∈ rest, d ≠ ' ' := fun d hd => h d (by simp [hd])
    simp [spaceIdx, hc, ih hr]

/-- The split returns the position of the first space character. -/
lemma spaceIdx_eq_some_of (cs : List Char) (p : Nat)
    (h : cs[p]? = some ' ') (hfirst : ∀ q, q < p → cs[q]? ≠ some ' ') :
    spaceIdx cs = some p := by
  induction cs generalizing p with
  | nil => simp at h
  | cons c rest ih =>
    cases p with
    | zero =>
      simp at h
      simp [spaceIdx, h]
    | succ n =>
      have hc : c ≠ ' ' := by
        have h0 := hfirst 0 (Nat.succ_pos n)
        simpa using h0
      have hr : rest[n]? = some ' ' := by simpa using h
      have hf : ∀ q, q < n → rest[q]? ≠ some ' ' := by
        intro q hq
        have hq1 := hfirst (q + 1) (by omega)
        simpa using hq1
      simp [spaceIdx, hc, ih n hr hf]

/-- Amended claim C4: the compared token is the prefix of the payload
before its first space character U+0020 — not its first whitespace
character — (the whole payload when it contains no space); matching is
first-match exact string equality over the token list; and the entire
original payload, not merely the extracted token, is forwarded on the
matched outlet `O[i]`, else on the catch-all `O[N]`. -/
theorem claim_C4_list_dispatch {α : Type} (list : List String)
    (outputs : List α) (h : outputs.length = list.length + 1)
    (value : String) :
    ((∀ c ∈ value.toList, c ≠ ' ') → firstToken value = value) ∧
    (∀ p, value.toList[p]? = some ' ' →
      (∀ q, q < p → value.toList[q]? ≠ some ' ') →
      firstToken value = String.mk (value.toList.take p)) ∧
    (∀ i, list[i]? = some (firstToken value) →
      (∀ j, j < i → list[j]? ≠ some (firstToken value)) →
      setListValue list outputs value = some (i, value)) ∧
    ((∀ t ∈ list, t ≠ firstToken value) →
      setListValue list outputs value = some (list.length, value)) := by
  refine ⟨?_, ?_, ?_, ?_⟩
  · intro hns
    rw [firstToken, spaceIdx_eq_none_of value.toList hns]
  · intro p hp hfirst
    rw [firstToken, spaceIdx_eq_some_of value.toList p hp hfirst]
  · intro i hi hfirst
    have hs := scan_eq_some_of list (firstToken value) i hi hfirst
    have hlt := scan_lt_of list (firstToken value) i hs
    rw [setListValue]
    simp only [hs, sendIdx]
    rw [if_pos (by omega)]
    rfl
  · intro hnone
    have hs := scan_eq_none_of list (firstToken value) hnone
    rw [setListValue]
    simp only [hs, backIdx, h]
    simp

/-- Concrete instance of amended claim C4: with token list ["hello"], the
payload "hello world" routes to outlet 0 carrying the full original
payload, and "goodbye world" routes to the catch-all outlet 1. -/
theorem claim_C4_witness :
    setListValue ["hello"] ([0, 1] : List Nat) "hello world" =
      some (0, "hello world") ∧
    setListValue ["hello"] ([0, 1] : List Nat) "goodbye world" =
      some (1, "goodbye world") :=
  ⟨((claim_C4_list_dispatch ["hello"] [0, 1] (by decide) "hello world").2.2).1
      0 (by decide) (by decide),
   ((claim_C4_list_dispatch ["hello"] [0, 1] (by decide) "goodbye world").2.2).2
      (by decide)⟩

/-- Index of the first whitespace character of the payload: the
tokenization claim C4 asserts ("first whitespace-delimited token"),
written from the claim for comparison with the source's space-only split. -/
def wsIdx (cs : List Char) : Option Nat :=
  match cs with
  | [] => none
  | c :: rest => if c.isWhitespace then some 0 else (wsIdx rest).map (· + 1)

/-- Token extraction as claim C4 states it: the first whitespace-delimited
token of the payload, the whole payload when it contains no whitespace. -/
def claimFirstToken (value : String) : String :=
  match wsIdx value.toList with
  | some p => String.mk (value.toList.take p)
  | none => value

/-- List dispatch as claim C4 states it: match the first
whitespace-delimited token against the token list, first match wins,
forward the entire original payload, else use the catch-all. -/
def claimRouteList {α : Type} (list : List String) (outputs : List α)
    (value : String) : Option (Nat × String) :=
  let token := claimFirstToken value
  match scan list token with
  | some i => (sendIdx outputs i).map (fun j => (j, value))
  | none => (backIdx outputs).map (fun j => (j, value))

/-- Counterexample to claim C4 as stated: the source splits the payload at
the first space only (`value.find(" ")`), not at the first whitespace
character.  On the tab payload "hello\tworld" with token list ["hello"],
the claimed behaviour extracts "hello" and routes to outlet 0, but the
code finds no space, compares the whole payload, fails to match, and
routes to the catch-all outlet 1. -/
theorem claim_C4_counterexample :
    setListValue ["hello"] ([0, 1] : List Nat) "hello\tworld" =
      some (1, "hello\tworld") ∧
    claimRouteList ["hello"] ([0, 1] : List Nat) "hello\tworld" =
      some (0, "hello\tworld") ∧
    setListValue ["hello"] ([0, 1] : List Nat) "hello\tworld" ≠
      claimRouteList ["hello"] ([0, 1] : List Nat) "hello\tworld" := by
  refine ⟨?_, ?_, ?_⟩ <;> decide

/-- Claim C8: ParameterParse never removes existing outlets.  For every
prior outlet vector of length M and every token list of size N, the loop
leaves max (M, N + 1) outlets, and every outlet that existed when
ParameterParse was invoked is still present, unchanged, at its old index,
so indices of previously-existing outlets stay in range and connections
made to them stay valid after a re-parse that grows the list. -/
theorem claim_C8_monotonic_growth {α : Type} (list : List String)
    (fresh : Nat → α) (outputs : List α) :
    (parmParse list fresh outputs).length =
      max outputs.length (list.length + 1) ∧
    (∀ i, i < outputs.length →
      (parmParse list fresh outputs)[i]? = outputs[i]?) ∧
    outputs.length ≤ (parmParse list fresh outputs).length :=
  ⟨parmParse_length list fresh outputs,
   fun i hi => parmParse_getElem list fresh outputs i hi,
   by rw [parmParse_length]; omega⟩

/-- Concrete instance of claim C8: re-parsing with a longer token list
grows a 2-outlet router to 4 outlets and keeps both prior outlets at their
indices. -/
theorem claim_C8_witness :
    (parmParse ["a", "b", "c"] (fun n => n) ([10, 11] : List Nat)).length = 4 ∧
    (parmParse ["a", "b", "c"] (fun n => n) ([10, 11] : List Nat))[0]? = some 10 ∧
    (parmParse ["a", "b", "c"] (fun n => n) ([10, 11] : List Nat))[1]? = some 11 :=
  ⟨(claim_C8_monotonic_growth ["a", "b", "c"] (fun n => n) [10, 11]).1,
   ((claim_C8_monotonic_growth ["a", "b", "c"] (fun n => n) [10, 11]).2.1
      0 (by decide)).trans (by decide),
   ((claim_C8_monotonic_growth ["a", "b", "c"] (fun n => n) [10, 11]).2.1
      1 (by decide)).trans (by decide)⟩

/-- Claim C10: under the invariant established by ParameterParse —
`outputs.length = list.length + 1` — every container access of the four
handlers is in range: each scanned access `outputs[i]` with
`i < list.length` is valid, the catch-all `outputs.back()` is valid and
designates index N, and each handler therefore completes without an
out-of-bounds access (`isSome`).  The precondition is necessary: after
ParameterClear alone the outlet vector is empty, the catch-all access has
no valid target, and a handler run in that state hits an invalid access. -/
theorem claim_C10_access_safety {α : Type} {φ : Type} (fmt : φ → String)
    (list : List String) (outputs : List α)
    (h : outputs.length = list.length + 1) (v : Int) (f : φ) (s : String) :
    (∀ i, i < list.length → sendIdx outputs i = some i) ∧
    backIdx outputs = some list.length ∧
    (setBangValue list outputs).isSome ∧
    (setIntValue list outputs v).isSome ∧
    (setFloatValue fmt list outputs f).isSome ∧
    (setListValue list outputs s).isSome ∧
    backIdx (parmClear outputs) = (none : Option Nat) ∧
    setBangValue list (parmClear outputs) = (none : Option Nat) := by
  have hsend : ∀ i, i < list.length → sendIdx outputs i = some i := by
    intro i hi
    rw [sendIdx, if_pos (by omega)]
  have hback : backIdx outputs = some list.length := by
    rw [backIdx, h]
    simp
  refine ⟨hsend, hback, ?_, ?_, ?_, ?_, ?_, ?_⟩
  · rw [setBangValue]
    cases hs : scan list "bang" with
    | some i =>
      have := scan_lt_of list "bang" i hs
      simp [hs, hsend i this]
    | none => simp [hs, hback]
  · rw [setIntValue]
    cases hs : scan list (toString v) with
    | some i =>
      have := scan_lt_of list (toString v) i hs
      simp [hs, hsend i this]
    | none => simp [hs, hback]
  · rw [setFloatValue]
    cases hs : scan list (fmt f) with
    | some i =>
      have := scan_lt_of list (fmt f) i hs
      simp [hs, hsend i this]
    | none => simp [hs, hback]
  · rw [setListValue]
    cases hs : scan list (firstToken s) with
    | some i =>
      have := scan_lt_of list (firstToken s) i hs
      simp [hs, hsend i this]
    | none => simp [hs, hback]
  · rfl
  · rw [parmClear, setBangValue]
    cases hs : scan list "bang" with
    | some i => simp [hs, sendIdx]
    | none => simp [hs, backIdx]

/-- Concrete instance of claim C10: with the invariant holding, all four
handlers complete on a 3-token router; after a clear the catch-all access
is invalid. -/
theorem claim_C10_witness :
    (setBangValue ["a", "b", "c"] ([0, 1, 2, 3] : List Nat)).isSome ∧
    (setIntValue ["a", "b", "c"] ([0, 1, 2, 3] : List Nat) 7).isSome ∧
    (setListValue ["a", "b", "c"] ([0, 1, 2, 3] : List Nat) "x y").isSome ∧
    backIdx (parmClear ([0, 1, 2, 3] : List Nat)) = (none : Option Nat) :=
  ⟨(claim_C10_access_safety (fun u : Unit => "") ["a", "b", "c"] [0, 1, 2, 3]
      (by decide) 7 () "x y").2.2.1,
   (claim_C10_access_safety (fun u : Unit => "") ["a", "b", "c"] [0, 1, 2, 3]
      (by decide) 7 () "x y").2.2.2.1,
   (claim_C10_access_safety (fun u : Unit => "") ["a", "b", "c"] [0, 1, 2, 3]
      (by decide) 7 () "x y").2.2.2.2.2.1,
   (claim_C10_access_safety (fun u : Unit => "") ["a", "b", "c"] [0, 1, 2, 3]
      (by decide) 7 () "x y").2.2.2.2.2.2.1⟩

/-- Modelled from the spec: the re-parse orchestration and the raw-argument
tokenizer are part of the patcher object machinery (pObjectList.hpp and the
registration macro layer), which is not under src/; only the gRoute
PARM_CLEAR and PARM_PARSE bodies are.  Per the spec, a re-parse invokes
ParameterClear (from the source: `outputs.clear()`) before parsing the
raw argument text; a malformed argument text fails with
ParameterParseError before ParameterParse runs.  `tokenize` abstracts the
argument grammar and returns `none` on malformed input; the result pairs
the parse outcome with the outlet vector the router is left with. -/
def reParse {α : Type} (tokenize : String → Option (List String))
    (fresh : Nat → α) (outputs : List α) (raw : String) :
    Option (List String) × List α :=
  let base := parmClear outputs
  match tokenize raw with
  | some list => (some list, parmParse list fresh base)
  | none => (none, base)

/-- Claim C7: when re-parsing fails on malformed arguments, the router is
left at ParameterClear's empty baseline — the derived outlets are dropped —
and not at the previously valid parameter state: a failed re-parse is
observably a clear, not a no-op. -/
theorem claim_C7_failed_reparse {α : Type}
    (tokenize : String → Option (List String)) (fresh : Nat → α)
    (outputs : List α) (raw : String) (h : tokenize raw = none) :
    reParse tokenize fresh outputs raw = (none, ([] : List α)) ∧
    (outputs ≠ [] → (reParse tokenize fresh outputs raw).2 ≠ outputs) := by
  have hr : reParse tokenize fresh outputs raw = (none, ([] : List α)) := by
    rw [reParse]
    simp [h, parmClear]
  exact ⟨hr, fun hne => by rw [hr]; exact fun heq => hne heq.symm⟩

/-- Concrete instance of claim C7: a failing tokenizer leaves a router
that previously had two outlets with none. -/
theorem claim_C7_witness :
    reParse (fun _ => none) (fun n => n) ([10, 11] : List Nat) "bad" =
      (none, ([] : List Nat)) :=
  (claim_C7_failed_reparse (fun _ => none) (fun n => n) [10, 11] "bad" rfl).1

/-- An object with the label used by the external injection API to resolve
message targets, and an inbox recording messages delivered to its first
inlet.  The float payload type is abstracted as `φ`. -/
inductive PMsg (φ : Type) where
  | bang : PMsg φ
  | intVal : Int → PMsg φ
  | floatVal : φ → PMsg φ
  | strVal : String → PMsg φ

/-- A live object as seen by the external injection API. -/
structure PObj (φ : Type) where
  label : String
  inbox : List (PMsg φ)

/-- Modelled from the spec: the bodies of patcher::PassBang and the three
patcher::PassData overloads live in patcherImplementation, which is not
under src/ (patcher.hpp declares only the surface).  Per the spec, a call
resolves the target name against object labels by exact match, delivers
the message to the matching object's first inlet and returns true; when no
object matches, it returns false — without raising, failing, or mutating
the graph. -/
def passMsg {φ : Type} (objs : List (PObj φ)) (msg : PMsg φ) (target : String) :
    Bool × List (PObj φ) :=
  match objs with
  | [] => (false, [])
  | o :: rest =>
    if o.label = target then
      (true, { o with inbox := o.inbox ++ [msg] } :: rest)
    else
      let r := passMsg rest msg target
      (r.1, o :: r.2)

/-- `patcher::PassBang(target)`. -/
def passBang {φ : Type} (objs : List (PObj φ)) (target : String) :
    Bool × List (PObj φ) :=
  passMsg objs PMsg.bang target

/-- `patcher::PassData(int value, target)`. -/
def passDataInt {φ : Type} (objs : List (PObj φ)) (value : Int)
    (target : String) : Bool × List (PObj φ) :=
  passMsg objs (PMsg.intVal value) target

/-- `patcher::PassData(float value, target)`. -/
def passDataFloat {φ : Type} (objs : List (PObj φ)) (value : φ)
    (target : String) : Bool × List (PObj φ) :=
  passMsg objs (PMsg.floatVal value) target

/-- `patcher::PassData(string value, target)`. -/
def passDataString {φ : Type} (objs : List (PObj φ)) (value : String)
    (target : String) : Bool × List (PObj φ) :=
  passMsg objs (PMsg.strVal value) target

/-- When no object carries the target label, injection returns false and
leaves every object untouched. -/
lemma passMsg_no_target {φ : Type} (objs : List (PObj φ)) (msg : PMsg φ)
    (target : String) (h : ∀ o ∈ objs, o.label ≠ target) :
    passMsg objs msg target = (false, objs) := by
  induction objs with
  | nil => rfl
  | cons o rest ih =>
    have ho : o.label ≠ target := h o (by simp)
    have hr : ∀ u ∈ rest, u.label ≠ target := fun u hu => h u (by simp [hu])
    rw [passMsg]
    simp [ho, ih hr]

/-- Claim C9: every call to PassBang and to the three PassData overloads
returns a boolean success flag, and returns false — without raising,
failing, or mutating the graph — whenever no live object matches the
target name; a missing target is a normal outcome, not an error. -/
theorem claim_C9_missing_target {φ : Type} (objs : List (PObj φ))
    (target : String) (v : Int) (f : φ) (s : String)
    (h : ∀ o ∈ objs, o.label ≠ target) :
    passBang objs target = (false, objs) ∧
    passDataInt objs v target = (false, objs) ∧
    passDataFloat objs f target = (false, objs) ∧
    passDataString objs s target = (false, objs) :=
  ⟨passMsg_no_target objs PMsg.bang target h,
   passMsg_no_target objs (PMsg.intVal v) target h,
   passMsg_no_target objs (PMsg.floatVal f) target h,
   passMsg_no_target objs (PMsg.strVal s) target h⟩

/-- Concrete instance of claim C9: injecting at a name no object carries
returns false and leaves the object list unchanged. -/
theorem claim_C9_witness :
    passBang [(⟨"osc", []⟩ : PObj Unit)] "gain" =
      (false, [(⟨"osc", []⟩ : PObj Unit)]) ∧
    passDataInt [(⟨"osc", []⟩ : PObj Unit)] 3 "gain" =
      (false, [(⟨"osc", []⟩ : PObj Unit)]) :=
  ⟨(claim_C9_missing_target [(⟨"osc", []⟩ : PObj Unit)] "gain" 3 () "x"
      (by decide)).1,
   (claim_C9_missing_target [(⟨"osc", []⟩ : PObj Unit)] "gain" 3 () "x"
      (by decide)).2.1⟩

/-- An object record as persisted: type tag, raw argument string, and the
assigned identifier. -/
structure GObject where
  type : String
  args : String
  id : Nat
deriving DecidableEq

/-- A connection four-tuple as persisted. -/
structure GConn where
  fromId : Nat
  fromOutlet : Nat
  toId : Nat
  toInlet : Nat
deriving DecidableEq

/-- The patch graph state relevant to persistence: the creation-ordered
object list (list position is what GetHandleFromList resolves) and the
connection list. -/
structure PGraph where
  objects : List GObject
  connections : List GConn

/-- Modelled from the spec: the bodies of patcher::DumpJSON and
patcher::ParseJSON live in patcherImplementation, which is not under src/
(patcher.hpp declares only the surface).  Per the spec, the persisted
document describes the ordered list of object records and the list of
connection four-tuples; the concrete JSON text encoding is abstracted as
this structured document. -/
structure GDoc where
  objects : List GObject
  connections : List GConn

/-- `patcher::DumpJSON`: serialize every live object (type, args, id) in
order and every connection four-tuple. -/
def dumpJSON (g : PGraph) : GDoc :=
  ⟨g.objects, g.connections⟩

/-- Object creation as persistence replays it: append the record at the
end of the creation-ordered list. -/
def createObject (g : PGraph) (o : GObject) : PGraph :=
  { g with objects := g.objects ++ [o] }

/-- `patcher::Connect` as persistence replays it: register the connection
after the existing ones. -/
def connectEdge (g : PGraph) (c : GConn) : PGraph :=
  { g with connections := g.connections ++ [c] }

/-- `patcher::Clear`: the graph returns to the empty state. -/
def clearGraph (_g : PGraph) : PGraph :=
  ⟨[], []⟩

/-- Modelled from the spec: `patcher::ParseJSON` clears the current graph,
recreates the objects in the relative order encoded in the document via
the normal creation path, then recreates every connection. -/
def parseJSON (g : PGraph) (d : GDoc) : PGraph :=
  d.connections.foldl connectEdge (d.objects.foldl createObject (clearGraph g))

/-- `patcher::GetHandleFromList`: resolve an object by its position in the
persisted/creation-ordered list. -/
def getHandleFromList (g : PGraph) (i : Nat) : Option GObject :=
  g.objects[i]?

/-- Replaying creation appends the document's objects in order. -/
lemma foldl_createObject (objs : List GObject) :
    ∀ g : PGraph, objs.foldl createObject g =
      ⟨g.objects ++ objs, g.connections⟩ := by
  induction objs with
  | nil => intro g; simp
  | cons o rest ih =>
    intro g
    rw [List.foldl_cons, ih]
    simp [createObject]

/-- Replaying connections appends the document's connections in order. -/
lemma foldl_connectEdge (conns : List GConn) :
    ∀ g : PGraph, conns.foldl connectEdge g =
      ⟨g.objects, g.connections ++ conns⟩ := by
  induction conns with
  | nil => intro g; simp
  | cons c rest ih =>
    intro g
    rw [List.foldl_cons, ih]
    simp [connectEdge]

/-- Parsing a document rebuilds exactly the document's object and
connection lists. -/
lemma parseJSON_eq (g : PGraph) (d : GDoc) :
    parseJSON g d = ⟨d.objects, d.connections⟩ := by
  rw [parseJSON, foldl_createObject, foldl_connectEdge]
  simp [clearGraph]

/-- Claim C2: for every graph G, `ParseJSON (DumpJSON G)` reconstructs a
graph with the same ordered object list — type tag, raw argument string
and id, in the same relative order, so every GetHandleFromList position
resolves to the same record — and the same multiset of connection
four-tuples (here even the same list) as G. -/
theorem claim_C2_roundtrip (g : PGraph) :
    (parseJSON g (dumpJSON g)).objects = g.objects ∧
    (∀ i, getHandleFromList (parseJSON g (dumpJSON g)) i =
      getHandleFromList g i) ∧
    ((parseJSON g (dumpJSON g)).connections : Multiset GConn) =
      (g.connections : Multiset GConn) := by
  rw [parseJSON_eq]
  exact ⟨rfl, fun i => rfl, rfl⟩

end YSE.PATCHER
